import Mathlib

/-
Verification of the linux-app-deployer repository against its specification.

The deployer (src/config.py, src/tools/tools_api.py, src/tools/linux_app_deployer.py,
src/api.py) is embedded shallowly:

* the filesystem is an explicit state (association lists of files, directories
  and symbolic links, keyed by absolute path strings);
* external processes are an oracle `Exec` mapping a command to its behaviour
  (completion with exit code and output, or timeout); the filesystem effects of
  external commands (git, mvn, systemctl) happen outside the modelled state;
* the static configuration module (`APPLICATIONS`, `ALLOWED_SERVICES`,
  `BUILD_COMMANDS`) is threaded as an `Env` parameter, with `defaultEnv` the
  repository's concrete `config.py` values, so that theorems can quantify over
  registries;
* Python exceptions become `Except PyErr`; an operation that mutates the
  filesystem returns the new state, and the list of commands it spawned is
  returned as a trace so that "no process action occurred" is statable.

Error-message strings follow the source; logging calls are elided.
-/

namespace Deployer

/-- File metadata and content as the deployer observes it: `content` models the
bytes (the size reported by `stat` is `content.length`) and `mtime` the
modification timestamp. -/
structure FileInfo where
  content : String
  mtime : Nat
deriving DecidableEq

/-- Filesystem state: regular files, directories and symbolic links, keyed by
absolute path strings. Association lists; the write operations below keep keys
unique. -/
structure FS where
  files : List (String × FileInfo)
  dirs : List String
  links : List (String × String)
deriving DecidableEq

def emptyFS : FS := ⟨[], [], []⟩

def FS.getFile (fs : FS) (p : String) : Option FileInfo :=
  (fs.files.find? (fun kv => kv.1 == p)).map (fun kv => kv.2)

def FS.getLink (fs : FS) (p : String) : Option String :=
  (fs.links.find? (fun kv => kv.1 == p)).map (fun kv => kv.2)

def FS.writeFile (fs : FS) (p : String) (fi : FileInfo) : FS :=
  { fs with files := (p, fi) :: fs.files.filter (fun kv => kv.1 != p) }

def FS.removeFile (fs : FS) (p : String) : FS :=
  { fs with files := fs.files.filter (fun kv => kv.1 != p) }

def FS.removeLink (fs : FS) (p : String) : FS :=
  { fs with links := fs.links.filter (fun kv => kv.1 != p) }

def FS.setLink (fs : FS) (p target : String) : FS :=
  { fs with links := (p, target) :: fs.links.filter (fun kv => kv.1 != p) }

/-- `Path.mkdir(parents=True, exist_ok=True)` restricted to recording the one
directory the claims inspect. -/
def FS.mkdirp (fs : FS) (d : String) : FS :=
  { fs with dirs := if fs.dirs.contains d then fs.dirs else d :: fs.dirs }

def FS.isDir (fs : FS) (d : String) : Bool :=
  fs.dirs.contains d

/-- Path concatenation, `Path / segment`. -/
def pjoin (a b : String) : String := a ++ "/" ++ b

/-- Split a character list at every occurrence of `c` (the separator is
dropped); `str.split(c)` over the underlying characters. -/
def splitOnChar (c : Char) : List Char → List (List Char)
  | [] => [[]]
  | x :: xs =>
    let r := splitOnChar c xs
    if x = c then [] :: r
    else
      match r with
      | [] => [[x]]
      | g :: gs => (x :: g) :: gs

/-- The slash-separated segments of a path. -/
def pathSegs (p : String) : List String :=
  (splitOnChar '/' p.data).map String.mk

/-- Undo `pathSegs`: interleave the segments with slashes. -/
def joinSlash : List String → String
  | [] => ""
  | [x] => x
  | x :: xs => x ++ "/" ++ joinSlash xs

/-- `Path.parent`: everything before the last slash. -/
def pathParent (p : String) : String :=
  joinSlash (pathSegs p).dropLast

/-- `Path.name`: the final path segment. -/
def pathName (p : String) : String :=
  ((pathSegs p).getLast?).getD p

/-- Whether the string holds a `*` wildcard (`'*' in str(artifact_pattern)`). -/
def hasStar (s : String) : Bool :=
  s.data.contains '*'

/-- Filename glob matching as the registry's patterns use it: at most one `*`
wildcard, matching any (possibly empty) run of characters; a pattern without
`*` matches only itself. (The repository's three patterns each contain exactly
one `*`; multi-star patterns are out of the model and never match.) -/
def globMatch (pat fname : String) : Bool :=
  match splitOnChar '*' pat.data with
  | [q] => String.mk q == fname
  | [p, s] =>
    Nat.ble (p.length + s.length) fname.data.length
      && p.isPrefixOf fname.data && s.isSuffixOf fname.data
  | _ => false

-- -------------------------
-- Command executor
-- -------------------------

/-- One spawned external command: argv and optional working directory. -/
structure Cmd where
  argv : List String
  cwd : Option String
deriving DecidableEq

/-- What the operating system does with a spawned command: completion with an
exit code and captured output, or expiry of the executor's timeout. -/
inductive CmdBehavior where
  | completed (code : Int) (stdout stderr : String)
  | timedOut
deriving DecidableEq

/-- The process environment, an oracle fixing each command's behaviour. -/
def Exec : Type := Cmd → CmdBehavior

/-- Result dictionary of `_run`: `{"code": .., "stdout": .., "stderr": ..}`. -/
structure CmdRes where
  code : Int
  stdout : String
  stderr : String
deriving DecidableEq

/-- Python `s[-n:]`, the last `n` characters. -/
def tailChars (n : Nat) (s : String) : String :=
  s.drop (s.length - n)

/-- `_run` (identical in tools_api.py and linux_app_deployer.py): run the
command capturing tail-truncated output; on `TimeoutExpired` do not raise but
return a synthetic result with code `-1` and an explanatory message. -/
def runCmd (ex : Exec) (argv : List String) (cwd : Option String) (timeout : Nat) : CmdRes :=
  match ex ⟨argv, cwd⟩ with
  | .completed code out err => ⟨code, tailChars 4000 out, tailChars 4000 err⟩
  | .timedOut => ⟨-1, "", "Command timed out after " ++ toString timeout ++ " seconds"⟩

-- -------------------------
-- Static configuration (config.py)
-- -------------------------

/-- One registry entry of `APPLICATIONS`. -/
structure AppCfg where
  git_url : String
  branch : String
  build_type : String
  artifact_path : String
  service_name : String
  deploy_path : String
  symlink : Option String
deriving DecidableEq

/-- The configuration module: applications registry, service allow-list and
build command table. -/
structure Env where
  applications : List (String × AppCfg)
  allowed_services : List String
  build_commands : List (String × List String)

def Env.lookupApp (env : Env) (name : String) : Option AppCfg :=
  (env.applications.find? (fun kv => kv.1 == name)).map (fun kv => kv.2)

def BASE_REPO_DIR : String := "/opt/repos"

def BASE_DEPLOY_DIR : String := "/opt/app"

def famvestCfg : AppCfg :=
  { git_url := "git@github.com/ysonawan/famvest.git", branch := "main",
    build_type := "maven", artifact_path := "target/famvest-*.jar",
    service_name := "famvest-app", deploy_path := pjoin BASE_DEPLOY_DIR "famvest",
    symlink := some "famvest.jar" }

def netlyCfg : AppCfg :=
  { git_url := "git@github.com/ysonawan/netly.git", branch := "main",
    build_type := "maven", artifact_path := "target/netly-*.jar",
    service_name := "netly-app", deploy_path := pjoin BASE_DEPLOY_DIR "netly",
    symlink := some "netly.jar" }

def duebookCfg : AppCfg :=
  { git_url := "git@github.com/ysonawan/duebook.git", branch := "main",
    build_type := "maven", artifact_path := "target/duebook-*.jar",
    service_name := "duebook-app", deploy_path := pjoin BASE_DEPLOY_DIR "duebook",
    symlink := some "duebook.jar" }

/-- The concrete `config.py` of the repository. -/
def defaultEnv : Env :=
  { applications := [("famvest", famvestCfg), ("netly", netlyCfg), ("duebook", duebookCfg)],
    allowed_services := ["famvest-app", "netly-app", "duebook-app"],
    build_commands := [("maven", ["mvn", "clean", "package", "-DskipTests"])] }

-- -------------------------
-- Errors and guards
-- -------------------------

/-- The Python exceptions the deployer raises or meets: `ValueError` from the
guards and resolution, `KeyError` from a failed dict lookup, `OSError` from a
failed `stat`/`copy`. -/
inductive PyErr where
  | valueError (msg : String)
  | keyError (key : String)
  | osError (msg : String)
deriving DecidableEq

/-- How the exception prints (`str(e)`), as the workflow records it. -/
def PyErr.pymsg : PyErr → String
  | .valueError m => m
  | .keyError k => "'" ++ k ++ "'"
  | .osError m => m

/-- `require_application` (tools_api.py): validate that the application is in
the registry. -/
def require_application (env : Env) (app : String) : Except PyErr Unit :=
  if (env.lookupApp app).isSome then .ok ()
  else .error (.valueError ("Application '" ++ app ++ "' not allowed"))

/-- `require_repo` (linux_app_deployer.py): same check as
`require_application`. -/
def require_repo (env : Env) (app : String) : Except PyErr Unit :=
  if (env.lookupApp app).isSome then .ok ()
  else .error (.valueError ("Application '" ++ app ++ "' not allowed"))

/-- `require_service` (identical in both files): validate the allow-list. -/
def require_service (env : Env) (service : String) : Except PyErr Unit :=
  if env.allowed_services.contains service then .ok ()
  else .error (.valueError ("Service '" ++ service ++ "' not allowed"))

-- -------------------------
-- Artifact resolution (tools_api.get_artifact_file)
-- -------------------------

/-- `artifact_pattern.parent.glob(artifact_pattern.name)`: the files of the
pattern's parent directory whose names match the pattern's final segment, in
filesystem listing order. -/
def globList (fs : FS) (parent namePat : String) : List (String × FileInfo) :=
  fs.files.filter (fun kv => pathParent kv.1 == parent && globMatch namePat (pathName kv.1))

/-- Insertion into a list kept in decreasing-mtime order. -/
def insertByMtime (x : String × FileInfo) : List (String × FileInfo) → List (String × FileInfo)
  | [] => [x]
  | y :: ys => if y.2.mtime < x.2.mtime then x :: y :: ys else y :: insertByMtime x ys

/-- `artifacts.sort(key=mtime, reverse=True)` as an insertion sort. The claims
proved here do not depend on the order of entries with equal mtimes (which
Python's stable sort may resolve differently). -/
def sortByMtimeDesc : List (String × FileInfo) → List (String × FileInfo)
  | [] => []
  | x :: xs => insertByMtime x (sortByMtimeDesc xs)

/-- `get_artifact_file` (tools_api.py): resolve the artifact path, globbing
the newest match when the pattern holds a wildcard. Note the source indexes
`APPLICATIONS[application_name]` without a guard, so an unknown name is a
`KeyError` (every caller guards first). -/
def get_artifact_file (env : Env) (fs : FS) (app : String) : Except PyErr String :=
  match env.lookupApp app with
  | none => .error (.keyError app)
  | some cfg =>
    let artifact_pattern := pjoin (pjoin BASE_REPO_DIR app) cfg.artifact_path
    if hasStar artifact_pattern then
      match sortByMtimeDesc (globList fs (pathParent artifact_pattern) (pathName artifact_pattern)) with
      | [] => .error (.valueError "No artifact found matching pattern")
      | a :: _ => .ok a.1
    else
      .ok artifact_pattern

-- -------------------------
-- Step operations, HTTP front-end (tools_api.py)
-- -------------------------

/-- Result of `checkout_repository`: `{"success": .., "details": ..}`. -/
structure CheckoutRes where
  success : Bool
  details : CmdRes
deriving DecidableEq

/-- `checkout_repository` (tools_api.py): guard, ensure the parent directory,
then clone, or fetch/checkout/pull when the checkout already exists. Returns
the new filesystem state and the trace of spawned commands. -/
def checkout_repository (env : Env) (ex : Exec) (fs : FS) (app : String) :
    Except PyErr CheckoutRes × FS × List Cmd :=
  match require_application env app with
  | .error e => (.error e, fs, [])
  | .ok _ =>
    match env.lookupApp app with
    | none => (.error (.keyError app), fs, [])
    | some cfg =>
      let repo_path := pjoin BASE_REPO_DIR app
      let fs1 := fs.mkdirp (pathParent repo_path)
      if fs1.isDir repo_path then
        let c1 : Cmd := ⟨["git", "fetch"], some repo_path⟩
        let c2 : Cmd := ⟨["git", "checkout", cfg.branch], some repo_path⟩
        let c3 : Cmd := ⟨["git", "pull"], some repo_path⟩
        let result := runCmd ex c3.argv c3.cwd 600
        (.ok ⟨result.code == 0, result⟩, fs1, [c1, c2, c3])
      else
        let c : Cmd := ⟨["git", "clone", "-b", cfg.branch, cfg.git_url, repo_path], none⟩
        let result := runCmd ex c.argv c.cwd 600
        (.ok ⟨result.code == 0, result⟩, fs1, [c])

/-- Result of `build_application`: `{"success": .., "logs": ..}`. -/
structure BuildRes where
  success : Bool
  logs : CmdRes
deriving DecidableEq

/-- `build_application` (tools_api.py): guard, fetch the build-kind's command
(`BUILD_COMMANDS[..]`, a `KeyError` for an unknown kind; an empty command is
`Unsupported build type`), run it in the checkout root. (The source's second
`application_name not in APPLICATIONS` re-check is unreachable after the guard
and is elided.) -/
def build_application (env : Env) (ex : Exec) (app : String) :
    Except PyErr BuildRes × List Cmd :=
  match require_application env app with
  | .error e => (.error e, [])
  | .ok _ =>
    match env.lookupApp app with
    | none => (.error (.keyError app), [])
    | some cfg =>
      let repo_path := pjoin BASE_REPO_DIR app
      match (env.build_commands.find? (fun kv => kv.1 == cfg.build_type)).map (fun kv => kv.2) with
      | none => (.error (.keyError cfg.build_type), [])
      | some cmd =>
        if cmd.isEmpty then (.error (.valueError "Unsupported build type"), [])
        else
          let result := runCmd ex cmd (some repo_path) 600
          (.ok ⟨result.code == 0, result⟩, [⟨cmd, some repo_path⟩])

/-- Result of `verify_artifact`: either `{"success": False, "error": ..}` or
`{"success": True, "artifact": .., "size_bytes": ..}`. -/
inductive VerifyRes where
  | failure (error : String)
  | okRes (artifact : String) (size_bytes : Nat)
deriving DecidableEq

def VerifyRes.success : VerifyRes → Bool
  | .failure _ => false
  | .okRes _ _ => true

/-- `verify_artifact` (tools_api.py): guard, resolve the artifact (a
`ValueError` from resolution becomes a `success:false` result), then `stat` it
(which raises `OSError` when a wildcard-free path does not exist) and check
the size. -/
def verify_artifact (env : Env) (fs : FS) (app : String) : Except PyErr VerifyRes :=
  match require_application env app with
  | .error e => .error e
  | .ok _ =>
    match get_artifact_file env fs app with
    | .error (.valueError m) => .ok (.failure m)
    | .error e => .error e
    | .ok artifact =>
      match fs.getFile artifact with
      | none => .error (.osError ("No such file or directory: " ++ artifact))
      | some fi =>
        if fi.content.length == 0 then .ok (.failure "Artifact size is zero")
        else .ok (.okRes artifact fi.content.length)

/-- Result of `deploy_artifact`: `{"success": .., "deployed_to": ..,
"backup": ..}`. -/
structure DeployRes where
  success : Bool
  deployed_to : String
  backup : Option String
deriving DecidableEq

/-- `deploy_artifact` (tools_api.py): guard; resolve the artifact (a
resolution `ValueError` is re-raised as `Artifact not found, build first`,
before any filesystem mutation — the source performs no other existence
check); ensure the deploy directory; move an existing target to `<name>.bak`
(overwriting any previous backup); then `copy2` the artifact onto the target
(metadata, hence mtime, preserved) — the copy reads its source only now, after
the move, so a resolved path with no file behind it (a wildcard-free pattern)
raises the copy's `OSError` at this point, leaving the directory creation and
the backup move in place; finally repoint the configured symlink, first
unlinking whatever occupies its path. -/
def deploy_artifact (env : Env) (fs : FS) (app : String) : Except PyErr DeployRes × FS :=
  match require_application env app with
  | .error e => (.error e, fs)
  | .ok _ =>
    match env.lookupApp app with
    | none => (.error (.keyError app), fs)
    | some cfg =>
      match get_artifact_file env fs app with
      | .error (.valueError _) => (.error (.valueError "Artifact not found, build first"), fs)
      | .error e => (.error e, fs)
      | .ok artifact =>
        let deploy_dir := cfg.deploy_path
        let fs1 := fs.mkdirp deploy_dir
        let target := pjoin deploy_dir (pathName artifact)
        let backup := pjoin deploy_dir (pathName artifact ++ ".bak")
        let fs2 :=
          match fs1.getFile target with
          | some tfi => (fs1.removeFile target).writeFile backup tfi
          | none => fs1
        match fs2.getFile artifact with
        | none => (.error (.osError ("No such file or directory: " ++ artifact)), fs2)
        | some fi =>
          let fs3 := fs2.writeFile target fi
          let fs4 :=
            match cfg.symlink with
            | none => fs3
            | some link =>
              let symlink_path := pjoin deploy_dir link
              let fs3a :=
                if (fs3.getFile symlink_path).isSome || (fs3.getLink symlink_path).isSome then
                  (fs3.removeFile symlink_path).removeLink symlink_path
                else fs3
              fs3a.setLink symlink_path target
          (.ok ⟨true, target, if (fs4.getFile backup).isSome then some backup else none⟩, fs4)

/-- Result of `restart_application`: `{"service": .., "success": ..,
"details": ..}`. -/
structure ServiceRes where
  service : String
  success : Bool
  details : CmdRes
deriving DecidableEq

/-- `restart_application` (tools_api.py): app guard, service guard, then
`systemctl restart`. -/
def restart_application (env : Env) (ex : Exec) (app : String) :
    Except PyErr ServiceRes × List Cmd :=
  match require_application env app with
  | .error e => (.error e, [])
  | .ok _ =>
    match env.lookupApp app with
    | none => (.error (.keyError app), [])
    | some cfg =>
      match require_service env cfg.service_name with
      | .error e => (.error e, [])
      | .ok _ =>
        let c : Cmd := ⟨["systemctl", "restart", cfg.service_name], none⟩
        let result := runCmd ex c.argv c.cwd 600
        (.ok ⟨cfg.service_name, result.code == 0, result⟩, [c])

/-- Result of `get_application_status`: `{"service": .., "status": ..}` — note
it carries no `success` key. -/
structure StatusRes where
  service : String
  status : CmdRes
deriving DecidableEq

/-- `get_application_status` (tools_api.py): app guard, service guard, then
`systemctl status --no-pager`. -/
def get_application_status (env : Env) (ex : Exec) (app : String) :
    Except PyErr StatusRes × List Cmd :=
  match require_application env app with
  | .error e => (.error e, [])
  | .ok _ =>
    match env.lookupApp app with
    | none => (.error (.keyError app), [])
    | some cfg =>
      match require_service env cfg.service_name with
      | .error e => (.error e, [])
      | .ok _ =>
        let c : Cmd := ⟨["systemctl", "status", cfg.service_name, "--no-pager"], none⟩
        let result := runCmd ex c.argv c.cwd 600
        (.ok ⟨cfg.service_name, result⟩, [c])

/-- Result of `get_recent_logs`: `{"service": .., "logs": ..}` (no `success`
key). -/
structure LogsRes where
  service : String
  logs : CmdRes
deriving DecidableEq

/-- `get_recent_logs` (tools_api.py): app guard, service guard, then
`journalctl -u <service> -n <lines> --no-pager`. -/
def get_recent_logs (env : Env) (ex : Exec) (app : String) (lines : Nat) :
    Except PyErr LogsRes × List Cmd :=
  match require_application env app with
  | .error e => (.error e, [])
  | .ok _ =>
    match env.lookupApp app with
    | none => (.error (.keyError app), [])
    | some cfg =>
      match require_service env cfg.service_name with
      | .error e => (.error e, [])
      | .ok _ =>
        let c : Cmd := ⟨["journalctl", "-u", cfg.service_name, "-n", toString lines, "--no-pager"], none⟩
        let result := runCmd ex c.argv c.cwd 600
        (.ok ⟨cfg.service_name, result⟩, [c])

-- -------------------------
-- Step operations, tool front-end (linux_app_deployer.py MCP tools)
-- -------------------------

/-- MCP `checkout_repository`: source-identical to the tools_api version
(with `require_repo` in place of `require_application`). -/
def mcp_checkout_repository (env : Env) (ex : Exec) (fs : FS) (app : String) :
    Except PyErr CheckoutRes × FS × List Cmd :=
  match require_repo env app with
  | .error e => (.error e, fs, [])
  | .ok _ =>
    match env.lookupApp app with
    | none => (.error (.keyError app), fs, [])
    | some cfg =>
      let repo_path := pjoin BASE_REPO_DIR app
      let fs1 := fs.mkdirp (pathParent repo_path)
      if fs1.isDir repo_path then
        let c1 : Cmd := ⟨["git", "fetch"], some repo_path⟩
        let c2 : Cmd := ⟨["git", "checkout", cfg.branch], some repo_path⟩
        let c3 : Cmd := ⟨["git", "pull"], some repo_path⟩
        let result := runCmd ex c3.argv c3.cwd 600
        (.ok ⟨result.code == 0, result⟩, fs1, [c1, c2, c3])
      else
        let c : Cmd := ⟨["git", "clone", "-b", cfg.branch, cfg.git_url, repo_path], none⟩
        let result := runCmd ex c.argv c.cwd 600
        (.ok ⟨result.code == 0, result⟩, fs1, [c])

/-- MCP `build_application`: source-identical to the tools_api version. -/
def mcp_build_application (env : Env) (ex : Exec) (app : String) :
    Except PyErr BuildRes × List Cmd :=
  match require_repo env app with
  | .error e => (.error e, [])
  | .ok _ =>
    match env.lookupApp app with
    | none => (.error (.keyError app), [])
    | some cfg =>
      let repo_path := pjoin BASE_REPO_DIR app
      match (env.build_commands.find? (fun kv => kv.1 == cfg.build_type)).map (fun kv => kv.2) with
      | none => (.error (.keyError cfg.build_type), [])
      | some cmd =>
        if cmd.isEmpty then (.error (.valueError "Unsupported build type"), [])
        else
          let result := runCmd ex cmd (some repo_path) 600
          (.ok ⟨result.code == 0, result⟩, [⟨cmd, some repo_path⟩])

/-- MCP `verify_artifact`: guards, then checks existence of the **literal**
`BASE_REPO_DIR / app / artifact_path` — no wildcard resolution. -/
def mcp_verify_artifact (env : Env) (fs : FS) (app : String) : Except PyErr VerifyRes :=
  match require_repo env app with
  | .error e => .error e
  | .ok _ =>
    match env.lookupApp app with
    | none => .error (.keyError app)
    | some cfg =>
      let artifact := pjoin (pjoin BASE_REPO_DIR app) cfg.artifact_path
      match fs.getFile artifact with
      | none => .ok (.failure "Artifact not found")
      | some fi =>
        if fi.content.length == 0 then .ok (.failure "Artifact size is zero")
        else .ok (.okRes artifact fi.content.length)

/-- MCP `deploy_artifact`: guard; the **literal** artifact path must exist
(`artifact.exists()`, before any mutation, else `Artifact not found, build
first`); mkdir; backup move; then `copy2`, whose source is read only after the
move (so it raises an `OSError` with the mutated state in the corner where the
move removed the source); no symlink management. -/
def mcp_deploy_artifact (env : Env) (fs : FS) (app : String) : Except PyErr DeployRes × FS :=
  match require_repo env app with
  | .error e => (.error e, fs)
  | .ok _ =>
    match env.lookupApp app with
    | none => (.error (.keyError app), fs)
    | some cfg =>
      let artifact := pjoin (pjoin BASE_REPO_DIR app) cfg.artifact_path
      match fs.getFile artifact with
      | none => (.error (.valueError "Artifact not found, build first"), fs)
      | some _ =>
        let deploy_dir := cfg.deploy_path
        let fs1 := fs.mkdirp deploy_dir
        let target := pjoin deploy_dir (pathName artifact)
        let backup := pjoin deploy_dir (pathName artifact ++ ".bak")
        let fs2 :=
          match fs1.getFile target with
          | some tfi => (fs1.removeFile target).writeFile backup tfi
          | none => fs1
        match fs2.getFile artifact with
        | none => (.error (.osError ("No such file or directory: " ++ artifact)), fs2)
        | some fi =>
          let fs3 := fs2.writeFile target fi
          (.ok ⟨true, target, if (fs3.getFile backup).isSome then some backup else none⟩, fs3)

/-- MCP `restart_application`: note there is **no** application guard — the
source indexes `APPLICATIONS[application_name]` directly, so an unknown
application raises `KeyError`; only the service allow-list is checked. -/
def mcp_restart_application (env : Env) (ex : Exec) (app : String) :
    Except PyErr ServiceRes × List Cmd :=
  match env.lookupApp app with
  | none => (.error (.keyError app), [])
  | some cfg =>
    match require_service env cfg.service_name with
    | .error e => (.error e, [])
    | .ok _ =>
      let c : Cmd := ⟨["systemctl", "restart", cfg.service_name], none⟩
      let result := runCmd ex c.argv c.cwd 600
      (.ok ⟨cfg.service_name, result.code == 0, result⟩, [c])

/-- MCP `get_application_status`: like `mcp_restart_application`, no
application guard — `KeyError` for an unknown application. -/
def mcp_get_application_status (env : Env) (ex : Exec) (app : String) :
    Except PyErr StatusRes × List Cmd :=
  match env.lookupApp app with
  | none => (.error (.keyError app), [])
  | some cfg =>
    match require_service env cfg.service_name with
    | .error e => (.error e, [])
    | .ok _ =>
      let c : Cmd := ⟨["systemctl", "status", cfg.service_name, "--no-pager"], none⟩
      let result := runCmd ex c.argv c.cwd 600
      (.ok ⟨cfg.service_name, result⟩, [c])

/-- MCP `get_recent_logs`: no application guard — `KeyError` for an unknown
application. -/
def mcp_get_recent_logs (env : Env) (ex : Exec) (app : String) (lines : Nat) :
    Except PyErr LogsRes × List Cmd :=
  match env.lookupApp app with
  | none => (.error (.keyError app), [])
  | some cfg =>
    match require_service env cfg.service_name with
    | .error e => (.error e, [])
    | .ok _ =>
      let c : Cmd := ⟨["journalctl", "-u", cfg.service_name, "-n", toString lines, "--no-pager"], none⟩
      let result := runCmd ex c.argv c.cwd 600
      (.ok ⟨cfg.service_name, result⟩, [c])

-- -------------------------
-- Workflow engine (api.py full_deployment_workflow)
-- -------------------------

/-- What one workflow step call did, seen from the engine: it returned a
result dictionary (whose `success` field is `none` when the key is absent,
as in the status step's result), or it raised. -/
inductive StepOutcome where
  | ret (success : Option Bool)
  | exn (msg : String)
deriving DecidableEq

/-- One entry of the workflow's `steps` map: the step's recorded result
(abstracted to its `success` field) or its recorded `{"error": str(e)}`. -/
inductive StepEntry where
  | value (success : Option Bool)
  | error (msg : String)
deriving DecidableEq

/-- Python truthiness of `result.get("success")`: only `True` is truthy;
`False` and an absent key (`None`) are falsy. -/
def truthy : Option Bool → Bool
  | some true => true
  | _ => false

/-- Whether the engine treats an outcome of steps 1..5 as a failure: a raise,
or a falsy `success` field. -/
def stepFails : StepOutcome → Bool
  | .ret s => !truthy s
  | .exn _ => true

/-- The entry the engine records for an outcome. -/
def entryOf : StepOutcome → StepEntry
  | .ret s => .value s
  | .exn m => .error m

/-- The workflow's aggregated result: the endpoint's `success` flag and the
`workflow_results` dictionary (`application`, ordered `steps` map, `status`,
`failed_step`; `workflow: "full-deploy"` is constant and elided). -/
structure WfRes where
  success : Bool
  application : String
  steps : List (String × StepEntry)
  status : Option String
  failed_step : Option String
deriving DecidableEq

/-- The fail-fast loop over the five mutating steps of
`full_deployment_workflow`: record each attempted step's entry in order; on a
raise or a falsy `success`, stop and name the failed step. -/
def runMutatingSteps (acc : List (String × StepEntry)) :
    List (String × StepOutcome) → List (String × StepEntry) × Option String
  | [] => (acc, none)
  | (name, .exn m) :: _ => (acc ++ [(name, .error m)], some name)
  | (name, .ret s) :: rest =>
    if truthy s then runMutatingSteps (acc ++ [(name, .value s)]) rest
    else (acc ++ [(name, .value s)], some name)

/-- `full_deployment_workflow` (api.py), over the six step call outcomes:
checkout → build → verify → deploy → restart fail-fast, then the best-effort
status step, whose error is recorded without flipping the overall status. -/
def full_deployment_workflow (app : String)
    (checkout build verify deploy restart statusStep : StepOutcome) : WfRes :=
  match runMutatingSteps []
      [("checkout", checkout), ("build", build), ("verify", verify),
       ("deploy", deploy), ("restart", restart)] with
  | (steps, some name) => ⟨false, app, steps, some "failed", some name⟩
  | (steps, none) =>
    ⟨true, app, steps ++ [("status", entryOf statusStep)], some "completed", none⟩

/-- `full_deployment_workflow` wired to the actual tools_api step operations,
threading the filesystem and the command trace exactly as api.py calls them;
each recorded step result is abstracted to its `success` field. -/
def workflow_run (env : Env) (ex : Exec) (fs : FS) (app : String) : WfRes × FS × List Cmd :=
  match checkout_repository env ex fs app with
  | (.error e, fs1, t1) =>
    (⟨false, app, [("checkout", .error e.pymsg)], some "failed", some "checkout"⟩, fs1, t1)
  | (.ok r1, fs1, t1) =>
    let e1 : String × StepEntry := ("checkout", .value (some r1.success))
    if !r1.success then (⟨false, app, [e1], some "failed", some "checkout"⟩, fs1, t1)
    else
      match build_application env ex app with
      | (.error e, t2) =>
        (⟨false, app, [e1, ("build", .error e.pymsg)], some "failed", some "build"⟩, fs1, t1 ++ t2)
      | (.ok r2, t2) =>
        let e2 : String × StepEntry := ("build", .value (some r2.success))
        if !r2.success then
          (⟨false, app, [e1, e2], some "failed", some "build"⟩, fs1, t1 ++ t2)
        else
          match verify_artifact env fs1 app with
          | .error e =>
            (⟨false, app, [e1, e2, ("verify", .error e.pymsg)], some "failed", some "verify"⟩,
             fs1, t1 ++ t2)
          | .ok r3 =>
            let e3 : String × StepEntry := ("verify", .value (some r3.success))
            if !r3.success then
              (⟨false, app, [e1, e2, e3], some "failed", some "verify"⟩, fs1, t1 ++ t2)
            else
              match deploy_artifact env fs1 app with
              | (.error e, fs2) =>
                (⟨false, app, [e1, e2, e3, ("deploy", .error e.pymsg)], some "failed", some "deploy"⟩,
                 fs2, t1 ++ t2)
              | (.ok r4, fs2) =>
                let e4 : String × StepEntry := ("deploy", .value (some r4.success))
                if !r4.success then
                  (⟨false, app, [e1, e2, e3, e4], some "failed", some "deploy"⟩, fs2, t1 ++ t2)
                else
                  match restart_application env ex app with
                  | (.error e, t5) =>
                    (⟨false, app, [e1, e2, e3, e4, ("restart", .error e.pymsg)],
                      some "failed", some "restart"⟩, fs2, t1 ++ t2 ++ t5)
                  | (.ok r5, t5) =>
                    let e5 : String × StepEntry := ("restart", .value (some r5.success))
                    if !r5.success then
                      (⟨false, app, [e1, e2, e3, e4, e5], some "failed", some "restart"⟩,
                       fs2, t1 ++ t2 ++ t5)
                    else
                      match get_application_status env ex app with
                      | (.error e, t6) =>
                        (⟨true, app, [e1, e2, e3, e4, e5, ("status", .error e.pymsg)],
                          some "completed", none⟩, fs2, t1 ++ t2 ++ t5 ++ t6)
                      | (.ok _, t6) =>
                        (⟨true, app, [e1, e2, e3, e4, e5, ("status", .value none)],
                          some "completed", none⟩, fs2, t1 ++ t2 ++ t5 ++ t6)

-- -------------------------
-- Auxiliary instances and lemmas
-- -------------------------

instance {e a : Type} [DecidableEq e] [DecidableEq a] : DecidableEq (Except e a) := fun x y =>
  match x, y with
  | .ok u, .ok v => if h : u = v then .isTrue (by rw [h]) else .isFalse (by simp [h])
  | .error u, .error v => if h : u = v then .isTrue (by rw [h]) else .isFalse (by simp [h])
  | .ok _, .error _ => .isFalse (by simp)
  | .error _, .ok _ => .isFalse (by simp)

theorem stepFails_false_iff (o : StepOutcome) :
    stepFails o = false ↔ ∃ s, o = .ret s ∧ truthy s = true := by
  cases o with
  | ret s => simp [stepFails]
  | exn m => simp [stepFails]

theorem truthy_some_false : truthy (some false) = false := rfl

-- -------------------------
-- Claim theorems
-- -------------------------

/-- C1. Workflow fail-fast: if one of the five mutating steps is the first to
fail (returning a falsy `success` or raising), the workflow result records
exactly the steps attempted so far, `status = failed` and `failed_step` naming
that step, and no later step appears; in particular a `success:false` build
leaves exactly the keys `checkout` and `build` in the steps map. -/
theorem workflow_fail_fast (app : String) (ck bd vf dp rs st : StepOutcome) :
    (stepFails ck = true →
      full_deployment_workflow app ck bd vf dp rs st =
        ⟨false, app, [("checkout", entryOf ck)], some "failed", some "checkout"⟩)
    ∧ (stepFails ck = false → stepFails bd = true →
      full_deployment_workflow app ck bd vf dp rs st =
        ⟨false, app, [("checkout", entryOf ck), ("build", entryOf bd)],
         some "failed", some "build"⟩)
    ∧ (stepFails ck = false → stepFails bd = false → stepFails vf = true →
      full_deployment_workflow app ck bd vf dp rs st =
        ⟨false, app, [("checkout", entryOf ck), ("build", entryOf bd), ("verify", entryOf vf)],
         some "failed", some "verify"⟩)
    ∧ (stepFails ck = false → stepFails bd = false → stepFails vf = false →
        stepFails dp = true →
      full_deployment_workflow app ck bd vf dp rs st =
        ⟨false, app,
         [("checkout", entryOf ck), ("build", entryOf bd), ("verify", entryOf vf),
          ("deploy", entryOf dp)], some "failed", some "deploy"⟩)
    ∧ (stepFails ck = false → stepFails bd = false → stepFails vf = false →
        stepFails dp = false → stepFails rs = true →
      full_deployment_workflow app ck bd vf dp rs st =
        ⟨false, app,
         [("checkout", entryOf ck), ("build", entryOf bd), ("verify", entryOf vf),
          ("deploy", entryOf dp), ("restart", entryOf rs)], some "failed", some "restart"⟩)
    ∧ (stepFails ck = false → bd = .ret (some false) →
      (full_deployment_workflow app ck bd vf dp rs st).steps.map Prod.fst =
          ["checkout", "build"]
        ∧ (full_deployment_workflow app ck bd vf dp rs st).status = some "failed"
        ∧ (full_deployment_workflow app ck bd vf dp rs st).failed_step = some "build") := by
  refine ⟨?_, ?_, ?_, ?_, ?_, ?_⟩
  · intro h1
    cases ck with
    | ret s =>
      simp only [stepFails, Bool.not_eq_true'] at h1
      simp [full_deployment_workflow, runMutatingSteps, entryOf, h1]
    | exn m => simp [full_deployment_workflow, runMutatingSteps, entryOf]
  · intro h1 h2
    obtain ⟨s1, rfl, ht1⟩ := (stepFails_false_iff ck).mp h1
    cases bd with
    | ret s =>
      simp only [stepFails, Bool.not_eq_true'] at h2
      simp [full_deployment_workflow, runMutatingSteps, entryOf, ht1, h2]
    | exn m => simp [full_deployment_workflow, runMutatingSteps, entryOf, ht1]
  · intro h1 h2 h3
    obtain ⟨s1, rfl, ht1⟩ := (stepFails_false_iff ck).mp h1
    obtain ⟨s2, rfl, ht2⟩ := (stepFails_false_iff bd).mp h2
    cases vf with
    | ret s =>
      simp only [stepFails, Bool.not_eq_true'] at h3
      simp [full_deployment_workflow, runMutatingSteps, entryOf, ht1, ht2, h3]
    | exn m => simp [full_deployment_workflow, runMutatingSteps, entryOf, ht1, ht2]
  · intro h1 h2 h3 h4
    obtain ⟨s1, rfl, ht1⟩ := (stepFails_false_iff ck).mp h1
    obtain ⟨s2, rfl, ht2⟩ := (stepFails_false_iff bd).mp h2
    obtain ⟨s3, rfl, ht3⟩ := (stepFails_false_iff vf).mp h3
    cases dp with
    | ret s =>
      simp only [stepFails, Bool.not_eq_true'] at h4
      simp [full_deployment_workflow, runMutatingSteps, entryOf, ht1, ht2, ht3, h4]
    | exn m => simp [full_deployment_workflow, runMutatingSteps, entryOf, ht1, ht2, ht3]
  · intro h1 h2 h3 h4 h5
    obtain ⟨s1, rfl, ht1⟩ := (stepFails_false_iff ck).mp h1
    obtain ⟨s2, rfl, ht2⟩ := (stepFails_false_iff bd).mp h2
    obtain ⟨s3, rfl, ht3⟩ := (stepFails_false_iff vf).mp h3
    obtain ⟨s4, rfl, ht4⟩ := (stepFails_false_iff dp).mp h4
    cases rs with
    | ret s =>
      simp only [stepFails, Bool.not_eq_true'] at h5
      simp [full_deployment_workflow, runMutatingSteps, entryOf, ht1, ht2, ht3, ht4, h5]
    | exn m =>
      simp [full_deployment_workflow, runMutatingSteps, entryOf, ht1, ht2, ht3, ht4]
  · intro h1 h2
    obtain ⟨s1, rfl, ht1⟩ := (stepFails_false_iff ck).mp h1
    subst h2
    simp [full_deployment_workflow, runMutatingSteps, entryOf, ht1, truthy_some_false]

/-- Closed instance of C1: a false build after a successful checkout leaves
exactly the two attempted steps and a failed status. -/
theorem workflow_fail_fast_witness :
    full_deployment_workflow "famvest" (.ret (some true)) (.ret (some false))
        (.ret (some true)) (.ret (some true)) (.ret (some true)) (.ret none) =
      ⟨false, "famvest",
       [("checkout", .value (some true)), ("build", .value (some false))],
       some "failed", some "build"⟩ :=
  (workflow_fail_fast "famvest" (.ret (some true)) (.ret (some false))
      (.ret (some true)) (.ret (some true)) (.ret (some true)) (.ret none)).2.1
    (by decide) (by decide)

/-- C2. Workflow happy path: when all five mutating steps return
`success=true`, the result is `status = completed` with all six step keys in
order, whatever the best-effort status step does; a raise in the status step
is recorded in the steps map without flipping the status. -/
theorem workflow_happy_path (app : String) (ck bd vf dp rs st : StepOutcome)
    (h1 : ck = .ret (some true)) (h2 : bd = .ret (some true))
    (h3 : vf = .ret (some true)) (h4 : dp = .ret (some true))
    (h5 : rs = .ret (some true)) :
    full_deployment_workflow app ck bd vf dp rs st =
      ⟨true, app,
       [("checkout", .value (some true)), ("build", .value (some true)),
        ("verify", .value (some true)), ("deploy", .value (some true)),
        ("restart", .value (some true)), ("status", entryOf st)],
       some "completed", none⟩
    ∧ (full_deployment_workflow app ck bd vf dp rs st).steps.map Prod.fst =
        ["checkout", "build", "verify", "deploy", "restart", "status"]
    ∧ (full_deployment_workflow app ck bd vf dp rs st).status = some "completed"
    ∧ ∀ m, st = .exn m →
        ("status", StepEntry.error m) ∈ (full_deployment_workflow app ck bd vf dp rs st).steps := by
  subst h1 h2 h3 h4 h5
  refine ⟨?_, ?_, ?_, ?_⟩
  · simp [full_deployment_workflow, runMutatingSteps, truthy]
  · simp [full_deployment_workflow, runMutatingSteps, truthy]
  · simp [full_deployment_workflow, runMutatingSteps, truthy]
  · intro m hm
    subst hm
    simp [full_deployment_workflow, runMutatingSteps, truthy, entryOf]

/-- Closed instance of C2: all five steps succeed and the status step raises;
the workflow still completes with all six keys. -/
theorem workflow_happy_path_witness :
    full_deployment_workflow "famvest" (.ret (some true)) (.ret (some true))
        (.ret (some true)) (.ret (some true)) (.ret (some true)) (.exn "boom") =
      ⟨true, "famvest",
       [("checkout", .value (some true)), ("build", .value (some true)),
        ("verify", .value (some true)), ("deploy", .value (some true)),
        ("restart", .value (some true)), ("status", .error "boom")],
       some "completed", none⟩ :=
  (workflow_happy_path "famvest" (.ret (some true)) (.ret (some true))
      (.ret (some true)) (.ret (some true)) (.ret (some true)) (.exn "boom")
      rfl rfl rfl rfl rfl).1

/-- An oracle under which every spawned command completes silently with exit
code 0 — used to probe operations whose guards fire before any spawn. -/
def probeExec : Exec := fun _ => .completed 0 "" ""

/-- An oracle under which every spawned command exceeds its timeout. -/
def timeoutExec : Exec := fun _ => .timedOut

/-- C6. Command executor timeout behaviour: a command whose execution exceeds
the timeout does not raise — `_run` returns exit code `-1`, empty stdout and
an explanatory stderr message — and this outcome flows through `build` and
`checkout` as an ordinary `success=false` result. -/
theorem command_timeout_flow (ex : Exec) (env : Env) (fs : FS) (app : String)
    (cfg : AppCfg) (cmd : List String)
    (hlk : env.lookupApp app = some cfg)
    (hcmd : (env.build_commands.find? (fun kv => kv.1 == cfg.build_type)).map (fun kv => kv.2) =
      some cmd)
    (hne : cmd.isEmpty = false)
    (hbuild : ex ⟨cmd, some (pjoin BASE_REPO_DIR app)⟩ = .timedOut) :
    (∀ argv cwd timeout, ex ⟨argv, cwd⟩ = .timedOut →
      runCmd ex argv cwd timeout =
        ⟨-1, "", "Command timed out after " ++ toString timeout ++ " seconds"⟩)
    ∧ build_application env ex app =
        (.ok ⟨false, ⟨-1, "", "Command timed out after 600 seconds"⟩⟩,
         [⟨cmd, some (pjoin BASE_REPO_DIR app)⟩])
    ∧ ((fs.mkdirp (pathParent (pjoin BASE_REPO_DIR app))).isDir (pjoin BASE_REPO_DIR app) = true →
      ex ⟨["git", "pull"], some (pjoin BASE_REPO_DIR app)⟩ = .timedOut →
      checkout_repository env ex fs app =
        (.ok ⟨false, ⟨-1, "", "Command timed out after 600 seconds"⟩⟩,
         fs.mkdirp (pathParent (pjoin BASE_REPO_DIR app)),
         [⟨["git", "fetch"], some (pjoin BASE_REPO_DIR app)⟩,
          ⟨["git", "checkout", cfg.branch], some (pjoin BASE_REPO_DIR app)⟩,
          ⟨["git", "pull"], some (pjoin BASE_REPO_DIR app)⟩])) := by
  refine ⟨?_, ?_, ?_⟩
  · intro argv cwd timeout h
    simp [runCmd, h]
  · simp [build_application, require_application, hlk, hcmd, hne, runCmd, hbuild]
    rfl
  · intro hdir hpull
    simp [checkout_repository, require_application, hlk, hdir, runCmd, hpull]
    rfl

/-- Closed instance of C6: under a timing-out oracle, building famvest yields
an ordinary `success=false` result carrying the synthetic timeout output. -/
theorem command_timeout_flow_witness :
    build_application defaultEnv timeoutExec "famvest" =
      (.ok ⟨false, ⟨-1, "", "Command timed out after 600 seconds"⟩⟩,
       [⟨["mvn", "clean", "package", "-DskipTests"], some (pjoin BASE_REPO_DIR "famvest")⟩]) :=
  (command_timeout_flow timeoutExec defaultEnv emptyFS "famvest" famvestCfg
      ["mvn", "clean", "package", "-DskipTests"] (by decide) (by decide) (by decide) rfl).2.1

/-- C3. Access-guard coverage at the failing input `"ghost"` (an identifier
outside the registry): every tools_api operation, the four guarded MCP
operations and the workflow reject it with the `Application not allowed`
`ValueError`, touching no filesystem state and spawning no command — but the
MCP tool front-end's restart/status/logs raise a bare `KeyError` from the
registry lookup instead of the Access Guard's validation error (still with no
side effect). -/
theorem access_guard_divergence :
    mcp_get_application_status defaultEnv probeExec "ghost" = (.error (.keyError "ghost"), [])
    ∧ mcp_restart_application defaultEnv probeExec "ghost" = (.error (.keyError "ghost"), [])
    ∧ mcp_get_recent_logs defaultEnv probeExec "ghost" 100 = (.error (.keyError "ghost"), [])
    ∧ get_application_status defaultEnv probeExec "ghost" =
        (.error (.valueError "Application 'ghost' not allowed"), [])
    ∧ restart_application defaultEnv probeExec "ghost" =
        (.error (.valueError "Application 'ghost' not allowed"), [])
    ∧ get_recent_logs defaultEnv probeExec "ghost" 100 =
        (.error (.valueError "Application 'ghost' not allowed"), [])
    ∧ checkout_repository defaultEnv probeExec emptyFS "ghost" =
        (.error (.valueError "Application 'ghost' not allowed"), emptyFS, [])
    ∧ build_application defaultEnv probeExec "ghost" =
        (.error (.valueError "Application 'ghost' not allowed"), [])
    ∧ verify_artifact defaultEnv emptyFS "ghost" =
        .error (.valueError "Application 'ghost' not allowed")
    ∧ deploy_artifact defaultEnv emptyFS "ghost" =
        (.error (.valueError "Application 'ghost' not allowed"), emptyFS)
    ∧ mcp_checkout_repository defaultEnv probeExec emptyFS "ghost" =
        (.error (.valueError "Application 'ghost' not allowed"), emptyFS, [])
    ∧ mcp_build_application defaultEnv probeExec "ghost" =
        (.error (.valueError "Application 'ghost' not allowed"), [])
    ∧ mcp_verify_artifact defaultEnv emptyFS "ghost" =
        .error (.valueError "Application 'ghost' not allowed")
    ∧ mcp_deploy_artifact defaultEnv emptyFS "ghost" =
        (.error (.valueError "Application 'ghost' not allowed"), emptyFS)
    ∧ workflow_run defaultEnv probeExec emptyFS "ghost" =
        (⟨false, "ghost", [("checkout", .error "Application 'ghost' not allowed")],
          some "failed", some "checkout"⟩, emptyFS, []) := by
  decide

/-- C8. Service allow-list independence: with a valid application whose
configured service is outside the allow-list, restart/status/logs on both
front-ends raise the `Service not allowed` validation error and spawn no
service-manager command. -/
theorem service_allowlist_independent (env : Env) (ex : Exec) (app : String)
    (cfg : AppCfg) (lines : Nat)
    (hlk : env.lookupApp app = some cfg)
    (hsv : cfg.service_name ∉ env.allowed_services) :
    restart_application env ex app =
      (.error (.valueError ("Service '" ++ cfg.service_name ++ "' not allowed")), [])
    ∧ get_application_status env ex app =
      (.error (.valueError ("Service '" ++ cfg.service_name ++ "' not allowed")), [])
    ∧ get_recent_logs env ex app lines =
      (.error (.valueError ("Service '" ++ cfg.service_name ++ "' not allowed")), [])
    ∧ mcp_restart_application env ex app =
      (.error (.valueError ("Service '" ++ cfg.service_name ++ "' not allowed")), [])
    ∧ mcp_get_application_status env ex app =
      (.error (.valueError ("Service '" ++ cfg.service_name ++ "' not allowed")), [])
    ∧ mcp_get_recent_logs env ex app lines =
      (.error (.valueError ("Service '" ++ cfg.service_name ++ "' not allowed")), []) := by
  refine ⟨?_, ?_, ?_, ?_, ?_, ?_⟩ <;>
    simp [restart_application, get_application_status, get_recent_logs,
          mcp_restart_application, mcp_get_application_status, mcp_get_recent_logs,
          require_application, require_service, hlk, hsv]

/-- An application descriptor naming a service outside the allow-list. -/
def rogueCfg : AppCfg :=
  { git_url := "git@example/alpha.git", branch := "main", build_type := "maven",
    artifact_path := "build/alpha-*.bin", service_name := "rogue-svc",
    deploy_path := pjoin BASE_DEPLOY_DIR "alpha", symlink := none }

/-- A registry whose single application names a service outside the
allow-list — the misconfiguration C8 guards against. -/
def rogueEnv : Env :=
  { applications := [("alpha", rogueCfg)],
    allowed_services := ["famvest-app"],
    build_commands := [] }

/-- Closed instance of C8: the rogue service is rejected on both front-ends
although the application id is valid. -/
theorem service_allowlist_independent_witness :
    restart_application rogueEnv probeExec "alpha" =
      (.error (.valueError "Service 'rogue-svc' not allowed"), [])
    ∧ mcp_restart_application rogueEnv probeExec "alpha" =
      (.error (.valueError "Service 'rogue-svc' not allowed"), []) :=
  have h := service_allowlist_independent rogueEnv probeExec "alpha"
    rogueCfg 100 (by decide) (by decide)
  ⟨h.1, h.2.2.2.1⟩

-- -------------------------
-- Filesystem lemmas
-- -------------------------

theorem find?_filter_ne {α : Type} {l : List (String × α)} {p q : String} (h : q ≠ p) :
    (l.filter (fun kv => kv.1 != p)).find? (fun kv => kv.1 == q) =
      l.find? (fun kv => kv.1 == q) := by
  induction l with
  | nil => rfl
  | cons kv t ih =>
    by_cases hkp : kv.1 = p
    · have hpq : (p == q) = false := by
        simp
        exact fun hq => h hq.symm
      simp [List.filter_cons, List.find?_cons, hkp, hpq, ih]
    · simp [List.filter_cons, hkp]
      by_cases hkq : kv.1 = q
      · simp [List.find?_cons, hkq]
      · simp [List.find?_cons, hkq, ih]

theorem find?_filter_self {α : Type} (l : List (String × α)) (p : String) :
    (l.filter (fun kv => kv.1 != p)).find? (fun kv => kv.1 == p) = none := by
  induction l with
  | nil => rfl
  | cons kv t ih =>
    by_cases hkp : kv.1 = p
    · simp [List.filter_cons, hkp, ih]
    · simp [List.filter_cons, List.find?_cons, hkp, ih]

theorem getFile_writeFile_self (fs : FS) (p : String) (fi : FileInfo) :
    (fs.writeFile p fi).getFile p = some fi := by
  simp [FS.getFile, FS.writeFile, List.find?_cons]

theorem getFile_writeFile_ne (fs : FS) (p : String) (fi : FileInfo) {q : String} (h : q ≠ p) :
    (fs.writeFile p fi).getFile q = fs.getFile q := by
  have hpq : (p == q) = false := by
    simp
    exact fun hq => h hq.symm
  simp only [FS.getFile, FS.writeFile, List.find?_cons, hpq]
  rw [find?_filter_ne h]

theorem getFile_removeFile_self (fs : FS) (p : String) :
    (fs.removeFile p).getFile p = none := by
  simp only [FS.getFile, FS.removeFile]
  rw [find?_filter_self]
  rfl

theorem getFile_removeFile_ne (fs : FS) (p : String) {q : String} (h : q ≠ p) :
    (fs.removeFile p).getFile q = fs.getFile q := by
  simp only [FS.getFile, FS.removeFile]
  rw [find?_filter_ne h]

theorem getFile_mkdirp (fs : FS) (d p : String) :
    (fs.mkdirp d).getFile p = fs.getFile p := rfl

theorem getFile_setLink (fs : FS) (a t p : String) :
    (fs.setLink a t).getFile p = fs.getFile p := rfl

theorem getFile_removeLink (fs : FS) (a p : String) :
    (fs.removeLink a).getFile p = fs.getFile p := rfl

theorem getFile_isSome_of_mem {fs : FS} {p : String} {fi : FileInfo}
    (h : (p, fi) ∈ fs.files) : (fs.getFile p).isSome = true := by
  have hex : (fs.files.find? (fun kv => kv.1 == p)).isSome = true := by
    rw [List.find?_isSome]
    exact ⟨(p, fi), h, by simp⟩
  obtain ⟨kv, hkv⟩ := Option.isSome_iff_exists.mp hex
  simp [FS.getFile, hkv]

theorem require_application_ok {env : Env} {app : String} {cfg : AppCfg}
    (hlk : env.lookupApp app = some cfg) : require_application env app = .ok () := by
  simp [require_application, hlk]

/-- C10. Deploy atomicity on failure: when `deploy_artifact` raises a
`ValueError` — on either front-end, because the application identifier is
invalid or because the artifact cannot be resolved (`Artifact not found, build
first`), the claim's two causes — the returned filesystem state (files,
directories, symlinks) is exactly the input state: no deploy directory
created, no backup move, no copy, no symlink change. (These validation raises
all happen before the first mutation; the later copy-time `OSError`, outside
the claim, fires only after the directory creation and backup move.) -/
theorem deploy_no_mutation_on_error (env : Env) (fs : FS) (app : String) :
    (∀ m, (deploy_artifact env fs app).1 = .error (.valueError m) →
        (deploy_artifact env fs app).2 = fs)
    ∧ (∀ m, (mcp_deploy_artifact env fs app).1 = .error (.valueError m) →
        (mcp_deploy_artifact env fs app).2 = fs) := by
  constructor
  · intro m h
    cases hr : require_application env app with
    | error e1 => simp [deploy_artifact, hr]
    | ok u =>
      cases hl : env.lookupApp app with
      | none => simp [deploy_artifact, hr, hl]
      | some cfg =>
        cases hg : get_artifact_file env fs app with
        | error e2 =>
          cases e2 with
          | valueError m2 => simp [deploy_artifact, hr, hl, hg]
          | keyError k => simp [deploy_artifact, hr, hl, hg]
          | osError m2 => simp [deploy_artifact, hr, hl, hg]
        | ok artifact =>
          exfalso
          cases hf : (match (fs.mkdirp cfg.deploy_path).getFile
              (pjoin cfg.deploy_path (pathName artifact)) with
            | some tfi =>
              ((fs.mkdirp cfg.deploy_path).removeFile
                (pjoin cfg.deploy_path (pathName artifact))).writeFile
                (pjoin cfg.deploy_path (pathName artifact ++ ".bak")) tfi
            | none => fs.mkdirp cfg.deploy_path).getFile artifact with
          | none => simp [deploy_artifact, hr, hl, hg, hf] at h
          | some fi => simp [deploy_artifact, hr, hl, hg, hf] at h
  · intro m h
    cases hr : require_repo env app with
    | error e1 => simp [mcp_deploy_artifact, hr]
    | ok u =>
      cases hl : env.lookupApp app with
      | none => simp [mcp_deploy_artifact, hr, hl]
      | some cfg =>
        cases hf : fs.getFile (pjoin (pjoin BASE_REPO_DIR app) cfg.artifact_path) with
        | none => simp [mcp_deploy_artifact, hr, hl, hf]
        | some fi =>
          exfalso
          cases hf2 : (match (fs.mkdirp cfg.deploy_path).getFile
              (pjoin cfg.deploy_path (pathName (pjoin (pjoin BASE_REPO_DIR app)
                cfg.artifact_path))) with
            | some tfi =>
              ((fs.mkdirp cfg.deploy_path).removeFile
                (pjoin cfg.deploy_path (pathName (pjoin (pjoin BASE_REPO_DIR app)
                  cfg.artifact_path)))).writeFile
                (pjoin cfg.deploy_path (pathName (pjoin (pjoin BASE_REPO_DIR app)
                  cfg.artifact_path) ++ ".bak")) tfi
            | none => fs.mkdirp cfg.deploy_path).getFile
              (pjoin (pjoin BASE_REPO_DIR app) cfg.artifact_path) with
          | none => simp [mcp_deploy_artifact, hr, hl, hf, hf2] at h
          | some fi2 => simp [mcp_deploy_artifact, hr, hl, hf, hf2] at h

/-- Closed instance of C10: a deploy of famvest with no built artifact raises
and leaves the empty filesystem untouched, on both front-ends. -/
theorem deploy_no_mutation_on_error_witness :
    (deploy_artifact defaultEnv emptyFS "famvest").2 = emptyFS
    ∧ (mcp_deploy_artifact defaultEnv emptyFS "famvest").2 = emptyFS :=
  ⟨(deploy_no_mutation_on_error defaultEnv emptyFS "famvest").1
      "Artifact not found, build first" (by decide),
   (deploy_no_mutation_on_error defaultEnv emptyFS "famvest").2
      "Artifact not found, build first" (by decide)⟩

-- -------------------------
-- Sorting lemmas for artifact resolution
-- -------------------------

theorem insertByMtime_ne_nil (x : String × FileInfo) (l : List (String × FileInfo)) :
    insertByMtime x l ≠ [] := by
  cases l with
  | nil => simp [insertByMtime]
  | cons y ys =>
    simp only [insertByMtime]
    split <;> simp

theorem sortByMtimeDesc_eq_nil_iff (l : List (String × FileInfo)) :
    sortByMtimeDesc l = [] ↔ l = [] := by
  cases l with
  | nil => simp [sortByMtimeDesc]
  | cons x xs => simp [sortByMtimeDesc, insertByMtime_ne_nil]

theorem sortByMtimeDesc_head_max (l : List (String × FileInfo)) (a : String × FileInfo)
    (rest : List (String × FileInfo)) (h : sortByMtimeDesc l = a :: rest) :
    a ∈ l ∧ ∀ b ∈ l, b.2.mtime ≤ a.2.mtime := by
  induction l generalizing a rest with
  | nil => simp [sortByMtimeDesc] at h
  | cons x xs ih =>
    rw [sortByMtimeDesc] at h
    cases hs : sortByMtimeDesc xs with
    | nil =>
      rw [hs] at h
      simp only [insertByMtime] at h
      obtain ⟨rfl, rfl⟩ := (List.cons.injEq _ _ _ _).mp h
      have hxs : xs = [] := (sortByMtimeDesc_eq_nil_iff xs).mp hs
      subst hxs
      exact ⟨List.mem_singleton.mpr rfl, by simp⟩
    | cons y ys =>
      rw [hs] at h
      obtain ⟨hy, hmax⟩ := ih y ys hs
      by_cases hlt : y.2.mtime < x.2.mtime
      · rw [insertByMtime, if_pos hlt] at h
        obtain ⟨rfl, -⟩ := (List.cons.injEq _ _ _ _).mp h
        refine ⟨List.mem_cons_self _ _, ?_⟩
        intro b hb
        rcases List.mem_cons.mp hb with rfl | hbxs
        · exact le_refl _
        · exact le_trans (hmax b hbxs) (le_of_lt hlt)
      · rw [insertByMtime, if_neg hlt] at h
        obtain ⟨rfl, -⟩ := (List.cons.injEq _ _ _ _).mp h
        refine ⟨List.mem_cons_of_mem _ hy, ?_⟩
        intro b hb
        rcases List.mem_cons.mp hb with rfl | hbxs
        · exact Nat.le_of_not_lt hlt
        · exact hmax b hbxs

theorem get_artifact_file_cases (env : Env) (fs : FS) (app : String) (cfg : AppCfg)
    (hlk : env.lookupApp app = some cfg)
    (hstar : hasStar (pjoin (pjoin BASE_REPO_DIR app) cfg.artifact_path) = true) :
    get_artifact_file env fs app = .error (.valueError "No artifact found matching pattern")
    ∨ ∃ a, a ∈ globList fs (pathParent (pjoin (pjoin BASE_REPO_DIR app) cfg.artifact_path))
        (pathName (pjoin (pjoin BASE_REPO_DIR app) cfg.artifact_path))
      ∧ get_artifact_file env fs app = .ok a.1 := by
  cases hs : sortByMtimeDesc (globList fs
      (pathParent (pjoin (pjoin BASE_REPO_DIR app) cfg.artifact_path))
      (pathName (pjoin (pjoin BASE_REPO_DIR app) cfg.artifact_path))) with
  | nil =>
    left
    simp [get_artifact_file, hlk, hstar, hs]
  | cons a rest =>
    right
    exact ⟨a, (sortByMtimeDesc_head_max _ a rest hs).1,
      by simp [get_artifact_file, hlk, hstar, hs]⟩

/-- C4. Artifact resolution: when the artifact pattern holds a wildcard, an
empty set of filesystem matches under the pattern's parent directory fails
with the `No artifact found matching pattern` error, and a non-empty set
resolves to a match whose modification time is greatest. -/
theorem artifact_resolution_newest (env : Env) (fs : FS) (app : String) (cfg : AppCfg)
    (parent namePat : String)
    (hlk : env.lookupApp app = some cfg)
    (hstar : hasStar (pjoin (pjoin BASE_REPO_DIR app) cfg.artifact_path) = true)
    (hp : parent = pathParent (pjoin (pjoin BASE_REPO_DIR app) cfg.artifact_path))
    (hn : namePat = pathName (pjoin (pjoin BASE_REPO_DIR app) cfg.artifact_path)) :
    (globList fs parent namePat = [] →
      get_artifact_file env fs app = .error (.valueError "No artifact found matching pattern"))
    ∧ (globList fs parent namePat ≠ [] →
      ∃ a ∈ globList fs parent namePat,
        get_artifact_file env fs app = .ok a.1
        ∧ ∀ b ∈ globList fs parent namePat, b.2.mtime ≤ a.2.mtime) := by
  subst hp hn
  constructor
  · intro hempty
    simp [get_artifact_file, hlk, hstar, hempty, sortByMtimeDesc]
  · intro hne
    cases hs : sortByMtimeDesc (globList fs
        (pathParent (pjoin (pjoin BASE_REPO_DIR app) cfg.artifact_path))
        (pathName (pjoin (pjoin BASE_REPO_DIR app) cfg.artifact_path))) with
    | nil => exact absurd ((sortByMtimeDesc_eq_nil_iff _).mp hs) hne
    | cons a rest =>
      obtain ⟨hmem, hmax⟩ := sortByMtimeDesc_head_max _ a rest hs
      refine ⟨a, hmem, ?_, hmax⟩
      simp [get_artifact_file, hlk, hstar, hs]

/-- A filesystem with two famvest artifacts of different modification times. -/
def fsTwoArtifacts : FS :=
  ⟨[("/opt/repos/famvest/target/famvest-1.0.jar", ⟨"aaa", 5⟩),
    ("/opt/repos/famvest/target/famvest-2.0.jar", ⟨"bbbb", 9⟩)], [], []⟩

/-- Closed instance of C4: with no matches resolution fails; with two matches
it returns one of maximal mtime. -/
theorem artifact_resolution_newest_witness :
    get_artifact_file defaultEnv emptyFS "famvest" =
      .error (.valueError "No artifact found matching pattern")
    ∧ ∃ a ∈ globList fsTwoArtifacts
        (pathParent (pjoin (pjoin BASE_REPO_DIR "famvest") famvestCfg.artifact_path))
        (pathName (pjoin (pjoin BASE_REPO_DIR "famvest") famvestCfg.artifact_path)),
      get_artifact_file defaultEnv fsTwoArtifacts "famvest" = .ok a.1
      ∧ ∀ b ∈ globList fsTwoArtifacts
          (pathParent (pjoin (pjoin BASE_REPO_DIR "famvest") famvestCfg.artifact_path))
          (pathName (pjoin (pjoin BASE_REPO_DIR "famvest") famvestCfg.artifact_path)),
        b.2.mtime ≤ a.2.mtime :=
  ⟨(artifact_resolution_newest defaultEnv emptyFS "famvest" famvestCfg _ _
      (by decide) (by decide) rfl rfl).1 (by decide),
   (artifact_resolution_newest defaultEnv fsTwoArtifacts "famvest" famvestCfg _ _
      (by decide) (by decide) rfl rfl).2 (by decide)⟩

-- -------------------------
-- Deploy backup invariant
-- -------------------------

theorem splitOnChar_ne_nil (c : Char) (l : List Char) : splitOnChar c l ≠ [] := by
  cases l with
  | nil => simp [splitOnChar]
  | cons x xs =>
    simp only [splitOnChar]
    split
    · simp
    · cases h : splitOnChar c xs <;> simp

theorem splitOnChar_cons_self (c : Char) (xs : List Char) :
    splitOnChar c (c :: xs) = [] :: splitOnChar c xs := by
  simp [splitOnChar]

theorem splitOnChar_cons_ne (c x : Char) (xs : List Char) (h : ¬x = c) (g : List Char)
    (gs : List (List Char)) (hs : splitOnChar c xs = g :: gs) :
    splitOnChar c (x :: xs) = (x :: g) :: gs := by
  simp [splitOnChar, h, hs]

theorem splitOnChar_append_sep (c : Char) (a b : List Char) :
    splitOnChar c (a ++ c :: b) = splitOnChar c a ++ splitOnChar c b := by
  induction a with
  | nil => simp [splitOnChar]
  | cons y ys ih =>
    by_cases hy : y = c
    · subst hy
      rw [List.cons_append, splitOnChar_cons_self, splitOnChar_cons_self, ih,
        List.cons_append]
    · cases hys : splitOnChar c ys with
      | nil => exact absurd hys (splitOnChar_ne_nil c ys)
      | cons g gs =>
        rw [List.cons_append,
          splitOnChar_cons_ne c y _ hy g (gs ++ splitOnChar c b) (by rw [ih, hys]; rfl),
          splitOnChar_cons_ne c y ys hy g gs hys, List.cons_append]

theorem splitOnChar_not_mem (c : Char) (l : List Char) (h : c ∉ l) :
    splitOnChar c l = [l] := by
  induction l with
  | nil => simp [splitOnChar]
  | cons x xs ih =>
    have hx : ¬x = c := fun he => h (by rw [← he]; exact List.mem_cons_self x xs)
    have hxs : c ∉ xs := fun hm => h (List.mem_cons_of_mem x hm)
    simp [splitOnChar, hx, ih hxs]

theorem mem_splitOnChar_not_mem (c : Char) (l : List Char) (g : List Char)
    (hg : g ∈ splitOnChar c l) : c ∉ g := by
  induction l generalizing g with
  | nil =>
    simp [splitOnChar] at hg
    subst hg
    simp
  | cons x xs ih =>
    by_cases hx : x = c
    · subst hx
      rw [splitOnChar_cons_self] at hg
      rcases List.mem_cons.mp hg with rfl | hmem
      · simp
      · exact ih g hmem
    · cases hys : splitOnChar c xs with
      | nil => exact absurd hys (splitOnChar_ne_nil c xs)
      | cons g0 gs =>
        rw [splitOnChar_cons_ne c x xs hx g0 gs hys] at hg
        rcases List.mem_cons.mp hg with rfl | hmem
        · intro hc
          rcases List.mem_cons.mp hc with he | hc0
          · exact hx he.symm
          · exact ih g0 (by rw [hys]; exact List.mem_cons_self g0 gs) hc0
        · exact ih g (by rw [hys]; exact List.mem_cons_of_mem g0 hmem)

theorem joinSlash_single (a : String) : joinSlash [a] = a := rfl

theorem joinSlash_cons_cons (a b : String) (t : List String) :
    joinSlash (a :: b :: t) = a ++ "/" ++ joinSlash (b :: t) := rfl

theorem mk_data (p : String) : String.mk p.data = p := rfl

theorem joinSlash_map_mk (l : List Char) :
    joinSlash ((splitOnChar '/' l).map String.mk) = String.mk l := by
  induction l with
  | nil => rfl
  | cons x xs ih =>
    by_cases hx : x = '/'
    · subst hx
      rw [splitOnChar_cons_self, List.map_cons]
      cases hm : (splitOnChar '/' xs).map String.mk with
      | nil => exact absurd (List.map_eq_nil_iff.mp hm) (splitOnChar_ne_nil '/' xs)
      | cons s ss =>
        rw [hm] at ih
        rw [joinSlash_cons_cons, ih]
        apply String.ext
        simp [String.data_append]
    · cases hys : splitOnChar '/' xs with
      | nil => exact absurd hys (splitOnChar_ne_nil '/' xs)
      | cons g gs =>
        rw [hys, List.map_cons] at ih
        rw [splitOnChar_cons_ne '/' x xs hx g gs hys, List.map_cons]
        cases gs with
        | nil =>
          rw [List.map_nil, joinSlash_single] at ih
          rw [List.map_nil, joinSlash_single]
          have hgxs : g = xs := congrArg String.data ih
          rw [hgxs]
        | cons g2 t2 =>
          rw [List.map_cons] at ih ⊢
          rw [joinSlash_cons_cons] at ih ⊢
          apply String.ext
          have hdata := congrArg String.data ih
          simp only [String.data_append] at hdata ⊢
          simp [hdata]

theorem pathSegs_ne_nil (p : String) : pathSegs p ≠ [] := by
  simp only [pathSegs]
  intro h
  exact splitOnChar_ne_nil '/' p.data (List.map_eq_nil_iff.mp h)

theorem joinSlash_pathSegs (p : String) : joinSlash (pathSegs p) = p := by
  have h := joinSlash_map_mk p.data
  rw [mk_data] at h
  exact h

theorem joinSlash_append_single (A : List String) (x : String) (h : A ≠ []) :
    joinSlash (A ++ [x]) = pjoin (joinSlash A) x := by
  induction A with
  | nil => exact absurd rfl h
  | cons a t ih =>
    cases t with
    | nil => rfl
    | cons b t2 =>
      have h2 := ih (by simp)
      have h1 : joinSlash ((a :: b :: t2) ++ [x]) =
          a ++ "/" ++ joinSlash ((b :: t2) ++ [x]) := rfl
      rw [h1, h2, joinSlash_cons_cons]
      simp only [pjoin]
      apply String.ext
      simp [String.data_append]

theorem joinSlash_ne_empty (A : List String) (h : 2 ≤ A.length) : joinSlash A ≠ "" := by
  match A, h with
  | a :: b :: t, _ =>
    rw [joinSlash_cons_cons]
    intro he
    have hlen := congrArg String.length he
    rw [String.length_append, String.length_append] at hlen
    have hone : ("/" : String).length = 1 := rfl
    have hzero : ("" : String).length = 0 := rfl
    omega

theorem pathName_eq_getLast (p : String) (h : pathSegs p ≠ []) :
    pathName p = (pathSegs p).getLast h := by
  simp [pathName, List.getLast?_eq_getLast _ h]

theorem pathParent_pathName (p : String) (h : pathParent p ≠ "") :
    pjoin (pathParent p) (pathName p) = p := by
  have hne := pathSegs_ne_nil p
  have hd : (pathSegs p).dropLast ≠ [] := by
    intro hdrop
    apply h
    simp [pathParent, hdrop, joinSlash]
  rw [pathParent, pathName_eq_getLast p hne, ← joinSlash_append_single _ _ hd,
    List.dropLast_append_getLast hne, joinSlash_pathSegs]

theorem pathName_pjoin (d x : String) (hx : ('/' : Char) ∉ x.data) :
    pathName (pjoin d x) = x := by
  have hdata : (pjoin d x).data = d.data ++ '/' :: x.data := by
    simp [pjoin, String.data_append]
  have hsegs : pathSegs (pjoin d x) = (splitOnChar '/' d.data).map String.mk ++ [x] := by
    simp [pathSegs, hdata, splitOnChar_append_sep, splitOnChar_not_mem _ _ hx, mk_data]
  simp [pathName, hsegs, List.getLast?_concat]

theorem pathName_no_slash (p : String) : ('/' : Char) ∉ (pathName p).data := by
  have hne := pathSegs_ne_nil p
  have hmem : (pathSegs p).getLast hne ∈ pathSegs p := List.getLast_mem hne
  simp only [pathSegs] at hmem
  obtain ⟨g, hg, he⟩ := List.mem_map.mp hmem
  rw [pathName_eq_getLast p hne]
  simp only [pathSegs]
  rw [← he]
  exact mem_splitOnChar_not_mem '/' p.data g hg

theorem ne_pjoin_bak_self (d p : String) : p ≠ pjoin d (pathName p ++ ".bak") := by
  intro h
  have hx : ('/' : Char) ∉ (pathName p ++ ".bak").data := by
    rw [String.data_append]
    intro hmem
    rcases List.mem_append.mp hmem with h1 | h2
    · exact pathName_no_slash p h1
    · exact absurd h2 (by decide)
  have hp := pathName_pjoin d (pathName p ++ ".bak") hx
  rw [← h] at hp
  have hlen := congrArg String.length hp
  rw [String.length_append] at hlen
  have hbak : (".bak" : String).length = 4 := rfl
  omega

theorem artifact_pattern_parent_ne_empty (app path : String) :
    pathParent (pjoin (pjoin BASE_REPO_DIR app) path) ≠ "" := by
  have hdata : (pjoin (pjoin BASE_REPO_DIR app) path).data =
      BASE_REPO_DIR.data ++ '/' :: (app.data ++ '/' :: path.data) := by
    simp [pjoin, String.data_append]
  have hsegs : pathSegs (pjoin (pjoin BASE_REPO_DIR app) path) =
      ((splitOnChar '/' BASE_REPO_DIR.data).map String.mk
        ++ ((splitOnChar '/' app.data).map String.mk
          ++ (splitOnChar '/' path.data).map String.mk)) := by
    simp [pathSegs, hdata, splitOnChar_append_sep]
  have h1 : 1 ≤ ((splitOnChar '/' BASE_REPO_DIR.data).map String.mk).length :=
    List.length_pos.mpr (fun hm => splitOnChar_ne_nil _ _ (List.map_eq_nil_iff.mp hm))
  have h2 : 1 ≤ ((splitOnChar '/' app.data).map String.mk).length :=
    List.length_pos.mpr (fun hm => splitOnChar_ne_nil _ _ (List.map_eq_nil_iff.mp hm))
  have h3 : 1 ≤ ((splitOnChar '/' path.data).map String.mk).length :=
    List.length_pos.mpr (fun hm => splitOnChar_ne_nil _ _ (List.map_eq_nil_iff.mp hm))
  have hlen : 3 ≤ (pathSegs (pjoin (pjoin BASE_REPO_DIR app) path)).length := by
    rw [hsegs]
    simp only [List.length_append]
    omega
  simp only [pathParent]
  apply joinSlash_ne_empty
  rw [List.length_dropLast]
  omega

theorem resolve_glob_mem (env : Env) (fs : FS) (app : String) (cfg : AppCfg) (p : String)
    (hlk : env.lookupApp app = some cfg)
    (hstar : hasStar (pjoin (pjoin BASE_REPO_DIR app) cfg.artifact_path) = true)
    (hres : get_artifact_file env fs app = .ok p) :
    ∃ fi, (p, fi) ∈ globList fs
      (pathParent (pjoin (pjoin BASE_REPO_DIR app) cfg.artifact_path))
      (pathName (pjoin (pjoin BASE_REPO_DIR app) cfg.artifact_path)) := by
  rcases get_artifact_file_cases env fs app cfg hlk hstar with hc | ⟨a, hmem, hc⟩
  · rw [hres] at hc
    exact absurd hc (by simp)
  · rw [hres] at hc
    obtain rfl : p = a.1 := by injection hc
    exact ⟨a.2, by simpa using hmem⟩

theorem resolved_parent (env : Env) (fs : FS) (app : String) (cfg : AppCfg) (p : String)
    (hlk : env.lookupApp app = some cfg)
    (hstar : hasStar (pjoin (pjoin BASE_REPO_DIR app) cfg.artifact_path) = true)
    (hres : get_artifact_file env fs app = .ok p) :
    pathParent p = pathParent (pjoin (pjoin BASE_REPO_DIR app) cfg.artifact_path) := by
  obtain ⟨fi, hmem⟩ := resolve_glob_mem env fs app cfg p hlk hstar hres
  have hpred := (List.mem_filter.mp hmem).2
  simp only [Bool.and_eq_true, beq_iff_eq] at hpred
  exact hpred.1

/-- Two resolutions of the same application whose results share a filename are
the same path: with a wildcard both lie in the pattern's parent directory,
without one both are the literal pattern path. -/
theorem resolved_same_name_eq (env : Env) (app : String) (cfg : AppCfg)
    (fsA fsB : FS) (pA pB : String)
    (hlk : env.lookupApp app = some cfg)
    (hresA : get_artifact_file env fsA app = .ok pA)
    (hresB : get_artifact_file env fsB app = .ok pB)
    (hname : pathName pB = pathName pA) : pB = pA := by
  by_cases hstar : hasStar (pjoin (pjoin BASE_REPO_DIR app) cfg.artifact_path) = true
  · have hpA := resolved_parent env fsA app cfg pA hlk hstar hresA
    have hpB := resolved_parent env fsB app cfg pB hlk hstar hresB
    have hparne := artifact_pattern_parent_ne_empty app cfg.artifact_path
    have hA := pathParent_pathName pA (by rw [hpA]; exact hparne)
    have hB := pathParent_pathName pB (by rw [hpB]; exact hparne)
    rw [← hB, ← hA, hpA, hpB, hname]
  · have hstar2 : hasStar (pjoin (pjoin BASE_REPO_DIR app) cfg.artifact_path) = false := by
      simpa using hstar
    have hA : pjoin (pjoin BASE_REPO_DIR app) cfg.artifact_path = pA := by
      have := hresA
      simp [get_artifact_file, hlk, hstar2] at this
      exact this
    have hB : pjoin (pjoin BASE_REPO_DIR app) cfg.artifact_path = pB := by
      have := hresB
      simp [get_artifact_file, hlk, hstar2] at this
      exact this
    rw [← hA, ← hB]

/-- Whether a path carries the `.bak` backup suffix. -/
def isBakPath (p : String) : Bool :=
  ".bak".data.isSuffixOf p.data

theorem pjoin_ne_bak (d n : String) : pjoin d n ≠ pjoin d (n ++ ".bak") := by
  intro h
  have hlen := congrArg String.length h
  simp [pjoin] at hlen
  exact absurd hlen (by decide)

theorem isBakPath_pjoin_bak (d n : String) : isBakPath (pjoin d (n ++ ".bak")) = true := by
  simp only [isBakPath, pjoin, String.data_append, List.isSuffixOf_iff_suffix]
  rw [← List.append_assoc]
  exact List.suffix_append _ _

/-- State of the filesystem after a successful `deploy_artifact` (tools_api):
the target path holds the artifact content, the backup path holds the former
target content when one existed (and is untouched otherwise), and every path
other than target, backup and symlink path is unchanged. -/
theorem deploy_state_after (env : Env) (fs : FS) (app : String) (cfg : AppCfg)
    (p : String) (fi : FileInfo)
    (hlk : env.lookupApp app = some cfg)
    (hres : get_artifact_file env fs app = .ok p)
    (hget : fs.getFile p = some fi)
    (hpt : p ≠ pjoin cfg.deploy_path (pathName p))
    (hsymt : ∀ l, cfg.symlink = some l →
      pjoin cfg.deploy_path l ≠ pjoin cfg.deploy_path (pathName p))
    (hsymb : ∀ l, cfg.symlink = some l →
      pjoin cfg.deploy_path l ≠ pjoin cfg.deploy_path (pathName p ++ ".bak")) :
    (deploy_artifact env fs app).2.getFile (pjoin cfg.deploy_path (pathName p)) = some fi
    ∧ (∀ t, fs.getFile (pjoin cfg.deploy_path (pathName p)) = some t →
        (deploy_artifact env fs app).2.getFile (pjoin cfg.deploy_path (pathName p ++ ".bak")) =
          some t)
    ∧ (fs.getFile (pjoin cfg.deploy_path (pathName p)) = none →
        (deploy_artifact env fs app).2.getFile (pjoin cfg.deploy_path (pathName p ++ ".bak")) =
          fs.getFile (pjoin cfg.deploy_path (pathName p ++ ".bak")))
    ∧ (∀ q, q ≠ pjoin cfg.deploy_path (pathName p) →
        q ≠ pjoin cfg.deploy_path (pathName p ++ ".bak") →
        (∀ l, cfg.symlink = some l → q ≠ pjoin cfg.deploy_path l) →
        (deploy_artifact env fs app).2.getFile q = fs.getFile q) := by
  have hreq := require_application_ok hlk
  have hTB : pjoin cfg.deploy_path (pathName p) ≠ pjoin cfg.deploy_path (pathName p ++ ".bak") :=
    pjoin_ne_bak _ _
  have hpb : p ≠ pjoin cfg.deploy_path (pathName p ++ ".bak") := ne_pjoin_bak_self _ _
  simp only [deploy_artifact, hreq, hlk, hres, getFile_mkdirp]
  cases hT : fs.getFile (pjoin cfg.deploy_path (pathName p)) with
  | some t0 =>
    dsimp only
    have hc2 : (((fs.mkdirp cfg.deploy_path).removeFile
        (pjoin cfg.deploy_path (pathName p))).writeFile
        (pjoin cfg.deploy_path (pathName p ++ ".bak")) t0).getFile p = some fi := by
      rw [getFile_writeFile_ne _ _ _ hpb, getFile_removeFile_ne _ _ hpt, getFile_mkdirp]
      exact hget
    simp only [hc2]
    cases hsym : cfg.symlink with
    | none =>
      dsimp only
      refine ⟨?_, ?_, ?_, ?_⟩
      · rw [getFile_writeFile_self]
      · intro t ht
        obtain rfl : t0 = t := by injection ht
        rw [getFile_writeFile_ne _ _ _ (Ne.symm hTB), getFile_writeFile_self]
      · intro ht
        exact absurd ht (by simp)
      · intro q hq1 hq2 hq3
        rw [getFile_writeFile_ne _ _ _ hq1, getFile_writeFile_ne _ _ _ hq2,
          getFile_removeFile_ne _ _ hq1, getFile_mkdirp]
    | some l =>
      have hlt := hsymt l hsym
      have hlb := hsymb l hsym
      dsimp only
      refine ⟨?_, ?_, ?_, ?_⟩
      · split
        · rw [getFile_setLink, getFile_removeLink,
            getFile_removeFile_ne _ _ (Ne.symm hlt), getFile_writeFile_self]
        · rw [getFile_setLink, getFile_writeFile_self]
      · intro t ht
        obtain rfl : t0 = t := by injection ht
        split
        · rw [getFile_setLink, getFile_removeLink,
            getFile_removeFile_ne _ _ (Ne.symm hlb),
            getFile_writeFile_ne _ _ _ (Ne.symm hTB), getFile_writeFile_self]
        · rw [getFile_setLink, getFile_writeFile_ne _ _ _ (Ne.symm hTB),
            getFile_writeFile_self]
      · intro ht
        exact absurd ht (by simp)
      · intro q hq1 hq2 hq3
        split
        · rw [getFile_setLink, getFile_removeLink,
            getFile_removeFile_ne _ _ (hq3 l rfl),
            getFile_writeFile_ne _ _ _ hq1, getFile_writeFile_ne _ _ _ hq2,
            getFile_removeFile_ne _ _ hq1, getFile_mkdirp]
        · rw [getFile_setLink, getFile_writeFile_ne _ _ _ hq1,
            getFile_writeFile_ne _ _ _ hq2, getFile_removeFile_ne _ _ hq1, getFile_mkdirp]
  | none =>
    dsimp only
    simp only [getFile_mkdirp, hget]
    cases hsym : cfg.symlink with
    | none =>
      dsimp only
      refine ⟨?_, ?_, ?_, ?_⟩
      · rw [getFile_writeFile_self]
      · intro t ht
        exact absurd ht (by simp)
      · intro ht
        rw [getFile_writeFile_ne _ _ _ (Ne.symm hTB), getFile_mkdirp]
      · intro q hq1 hq2 hq3
        rw [getFile_writeFile_ne _ _ _ hq1, getFile_mkdirp]
    | some l =>
      have hlt := hsymt l hsym
      have hlb := hsymb l hsym
      dsimp only
      refine ⟨?_, ?_, ?_, ?_⟩
      · split
        · rw [getFile_setLink, getFile_removeLink,
            getFile_removeFile_ne _ _ (Ne.symm hlt), getFile_writeFile_self]
        · rw [getFile_setLink, getFile_writeFile_self]
      · intro t ht
        exact absurd ht (by simp)
      · intro ht
        split
        · rw [getFile_setLink, getFile_removeLink,
            getFile_removeFile_ne _ _ (Ne.symm hlb),
            getFile_writeFile_ne _ _ _ (Ne.symm hTB), getFile_mkdirp]
        · rw [getFile_setLink, getFile_writeFile_ne _ _ _ (Ne.symm hTB), getFile_mkdirp]
      · intro q hq1 hq2 hq3
        split
        · rw [getFile_setLink, getFile_removeLink,
            getFile_removeFile_ne _ _ (hq3 l rfl),
            getFile_writeFile_ne _ _ _ hq1, getFile_mkdirp]
        · rw [getFile_setLink, getFile_writeFile_ne _ _ _ hq1, getFile_mkdirp]

/-- C5. Deploy backup invariant: after two successive successful deploys of
artifacts sharing one name, the single backup path for that name holds the
content deployed first, the target holds the content deployed second, and no
other `.bak` path has changed — so at most one `.bak` backup exists per
deployed artifact name, and after two deploys its content is the first
deploy's artifact content. -/
theorem deploy_backup_invariant (env : Env) (fs₀ : FS) (app : String) (cfg : AppCfg)
    (p₁ p₂ : String) (fi₁ fi₂ : FileInfo)
    (hlk : env.lookupApp app = some cfg)
    (hres₁ : get_artifact_file env fs₀ app = .ok p₁)
    (hget₁ : fs₀.getFile p₁ = some fi₁)
    (hres₂ : get_artifact_file env (deploy_artifact env fs₀ app).2 app = .ok p₂)
    (hget₂ : (deploy_artifact env fs₀ app).2.getFile p₂ = some fi₂)
    (hname : pathName p₂ = pathName p₁)
    (htgt : isBakPath (pjoin cfg.deploy_path (pathName p₁)) = false)
    (hsym : ∀ l, cfg.symlink = some l →
      pjoin cfg.deploy_path l ≠ pjoin cfg.deploy_path (pathName p₁) ∧
      isBakPath (pjoin cfg.deploy_path l) = false) :
    (deploy_artifact env (deploy_artifact env fs₀ app).2 app).2.getFile
        (pjoin cfg.deploy_path (pathName p₁ ++ ".bak")) = some fi₁
    ∧ (deploy_artifact env (deploy_artifact env fs₀ app).2 app).2.getFile
        (pjoin cfg.deploy_path (pathName p₁)) = some fi₂
    ∧ ∀ q, isBakPath q = true → q ≠ pjoin cfg.deploy_path (pathName p₁ ++ ".bak") →
        (deploy_artifact env (deploy_artifact env fs₀ app).2 app).2.getFile q =
          fs₀.getFile q := by
  have hreq := require_application_ok hlk
  have hsymt : ∀ l, cfg.symlink = some l →
      pjoin cfg.deploy_path l ≠ pjoin cfg.deploy_path (pathName p₁) :=
    fun l hl => (hsym l hl).1
  have hsymb : ∀ l, cfg.symlink = some l →
      pjoin cfg.deploy_path l ≠ pjoin cfg.deploy_path (pathName p₁ ++ ".bak") := by
    intro l hl heq
    have hfalse := (hsym l hl).2
    rw [heq, isBakPath_pjoin_bak] at hfalse
    exact absurd hfalse (by simp)
  have h12 : p₂ = p₁ :=
    resolved_same_name_eq env app cfg fs₀ (deploy_artifact env fs₀ app).2 p₁ p₂
      hlk hres₁ hres₂ hname
  have hpt₁ : p₁ ≠ pjoin cfg.deploy_path (pathName p₁) := by
    intro hcon
    have hgT : fs₀.getFile (pjoin cfg.deploy_path (pathName p₁)) = some fi₁ := by
      rw [← hcon]; exact hget₁
    have hnone : (((fs₀.mkdirp cfg.deploy_path).removeFile
        (pjoin cfg.deploy_path (pathName p₁))).writeFile
        (pjoin cfg.deploy_path (pathName p₁ ++ ".bak")) fi₁).getFile p₁ = none := by
      rw [getFile_writeFile_ne _ _ _ (ne_pjoin_bak_self _ _)]
      nth_rewrite 2 [hcon]
      rw [getFile_removeFile_self]
    have hd2 : (deploy_artifact env fs₀ app).2.getFile p₁ = none := by
      simp only [deploy_artifact, hreq, hlk, hres₁, getFile_mkdirp, hgT, hnone]
    rw [h12, hd2] at hget₂
    simp at hget₂
  have hpt₂ : p₂ ≠ pjoin cfg.deploy_path (pathName p₂) := by
    intro hcon
    apply hpt₁
    calc p₁ = p₂ := h12.symm
    _ = pjoin cfg.deploy_path (pathName p₂) := hcon
    _ = pjoin cfg.deploy_path (pathName p₁) := by rw [hname]
  have h1 := deploy_state_after env fs₀ app cfg p₁ fi₁ hlk hres₁ hget₁ hpt₁ hsymt hsymb
  have hsymt₂ : ∀ l, cfg.symlink = some l →
      pjoin cfg.deploy_path l ≠ pjoin cfg.deploy_path (pathName p₂) := by
    rw [hname]; exact hsymt
  have hsymb₂ : ∀ l, cfg.symlink = some l →
      pjoin cfg.deploy_path l ≠ pjoin cfg.deploy_path (pathName p₂ ++ ".bak") := by
    rw [hname]; exact hsymb
  have h2 := deploy_state_after env (deploy_artifact env fs₀ app).2 app cfg p₂ fi₂
    hlk hres₂ hget₂ hpt₂ hsymt₂ hsymb₂
  rw [hname] at h2
  refine ⟨?_, ?_, ?_⟩
  · exact h2.2.1 fi₁ h1.1
  · exact h2.1
  · intro q hqbak hqne
    have hqT : q ≠ pjoin cfg.deploy_path (pathName p₁) := by
      intro he
      exact absurd (he ▸ hqbak) (by simp [htgt])
    have hqS : ∀ l, cfg.symlink = some l → q ≠ pjoin cfg.deploy_path l := by
      intro l hl he
      exact absurd (he ▸ hqbak) (by simp [(hsym l hl).2])
    rw [h2.2.2.2 q hqT hqne hqS]
    exact h1.2.2.2 q hqT hqne hqS

/-- Closed instance of C5: deploying famvest twice from a state with two built
artifacts leaves the newest content both at the target and (from the first
deploy) in the single backup. -/
theorem deploy_backup_invariant_witness :
    (deploy_artifact defaultEnv
        (deploy_artifact defaultEnv fsTwoArtifacts "famvest").2 "famvest").2.getFile
      (pjoin famvestCfg.deploy_path
        (pathName "/opt/repos/famvest/target/famvest-2.0.jar" ++ ".bak")) =
      some ⟨"bbbb", 9⟩
    ∧ (deploy_artifact defaultEnv
        (deploy_artifact defaultEnv fsTwoArtifacts "famvest").2 "famvest").2.getFile
      (pjoin famvestCfg.deploy_path
        (pathName "/opt/repos/famvest/target/famvest-2.0.jar")) =
      some ⟨"bbbb", 9⟩ :=
  have h := deploy_backup_invariant defaultEnv fsTwoArtifacts "famvest" famvestCfg
    "/opt/repos/famvest/target/famvest-2.0.jar" "/opt/repos/famvest/target/famvest-2.0.jar"
    ⟨"bbbb", 9⟩ ⟨"bbbb", 9⟩ (by decide) (by decide) (by decide) (by decide) (by decide) rfl
    (by decide)
    (by
      intro l hl
      have hl' : some "famvest.jar" = some l := hl
      obtain rfl : "famvest.jar" = l := by injection hl'
      exact ⟨by decide, by decide⟩)
  ⟨h.1, h.2.1⟩

-- -------------------------
-- Verify contract and front-end comparison
-- -------------------------

/-- C7 (amended to the HTTP front-end). Verify contract of the tools_api
`verify_artifact` for a valid application with a wildcard artifact pattern: it
never raises; no match yields `success=false` with the not-found reason; an
empty resolved artifact yields `success=false` with the size-is-zero reason;
otherwise it returns `success=true` with the artifact path and its size. -/
theorem verify_contract_api (env : Env) (fs : FS) (app : String) (cfg : AppCfg)
    (hlk : env.lookupApp app = some cfg)
    (hstar : hasStar (pjoin (pjoin BASE_REPO_DIR app) cfg.artifact_path) = true) :
    (∃ r, verify_artifact env fs app = .ok r)
    ∧ (get_artifact_file env fs app =
          .error (.valueError "No artifact found matching pattern") →
        verify_artifact env fs app = .ok (.failure "No artifact found matching pattern"))
    ∧ (∀ p fi, get_artifact_file env fs app = .ok p → fs.getFile p = some fi →
        fi.content.length = 0 →
        verify_artifact env fs app = .ok (.failure "Artifact size is zero"))
    ∧ (∀ p fi, get_artifact_file env fs app = .ok p → fs.getFile p = some fi →
        fi.content.length ≠ 0 →
        verify_artifact env fs app = .ok (.okRes p fi.content.length)) := by
  have hreq := require_application_ok hlk
  refine ⟨?_, ?_, ?_, ?_⟩
  · rcases get_artifact_file_cases env fs app cfg hlk hstar with hcase | ⟨a, hmem, hcase⟩
    · exact ⟨.failure "No artifact found matching pattern",
        by simp [verify_artifact, hreq, hcase]⟩
    · have hin : (a.1, a.2) ∈ fs.files := (List.mem_filter.mp hmem).1
      obtain ⟨fi, hfi⟩ := Option.isSome_iff_exists.mp (getFile_isSome_of_mem hin)
      by_cases hz : fi.content.length = 0
      · exact ⟨.failure "Artifact size is zero",
          by simp [verify_artifact, hreq, hcase, hfi, hz]⟩
      · exact ⟨.okRes a.1 fi.content.length,
          by simp [verify_artifact, hreq, hcase, hfi, hz]⟩
  · intro hcase
    simp [verify_artifact, hreq, hcase]
  · intro p fi hcase hfi hz
    simp [verify_artifact, hreq, hcase, hfi, hz]
  · intro p fi hcase hfi hz
    simp [verify_artifact, hreq, hcase, hfi, hz]

/-- Closed instance of the amended C7: verify on famvest succeeds with path
and size when a matching non-empty artifact exists, and reports not-found on
an empty filesystem. -/
theorem verify_contract_api_witness :
    verify_artifact defaultEnv fsTwoArtifacts "famvest" =
      .ok (.okRes "/opt/repos/famvest/target/famvest-2.0.jar" 4)
    ∧ verify_artifact defaultEnv emptyFS "famvest" =
      .ok (.failure "No artifact found matching pattern") :=
  ⟨(verify_contract_api defaultEnv fsTwoArtifacts "famvest" famvestCfg
      (by decide) (by decide)).2.2.2 "/opt/repos/famvest/target/famvest-2.0.jar"
      ⟨"bbbb", 9⟩ (by decide) (by decide) (by decide),
   (verify_contract_api defaultEnv emptyFS "famvest" famvestCfg
      (by decide) (by decide)).2.1 (by decide)⟩

/-- Counterexample to C7 as stated: on a filesystem where a non-empty artifact
matches famvest's wildcard pattern, the HTTP front-end's verify succeeds, but
the MCP tool front-end's verify — also cited by the claim — checks the literal
starred path and returns `success=false, "Artifact not found"` instead of the
required `success=true`. -/
theorem verify_contract_counterexample :
    verify_artifact defaultEnv fsTwoArtifacts "famvest" =
      .ok (.okRes "/opt/repos/famvest/target/famvest-2.0.jar" 4)
    ∧ mcp_verify_artifact defaultEnv fsTwoArtifacts "famvest" =
      .ok (.failure "Artifact not found") := by
  decide

/-- C9 (amended). Front-end equivalence holds for checkout and build: the MCP
tool implementations and the tools_api implementations agree on every
registry, oracle, filesystem and application. -/
theorem frontend_equivalence_checkout_build (env : Env) (ex : Exec) (fs : FS) (app : String) :
    mcp_checkout_repository env ex fs app = checkout_repository env ex fs app
    ∧ mcp_build_application env ex app = build_application env ex app :=
  ⟨rfl, rfl⟩

/-- Counterexample to C9 as stated: verify, deploy and status differ between
the two front-ends at concrete inputs — verify and deploy because only
tools_api resolves wildcards (and manages symlinks), status because only
tools_api validates the application identifier. -/
theorem frontend_equivalence_counterexample :
    verify_artifact defaultEnv fsTwoArtifacts "famvest" ≠
      mcp_verify_artifact defaultEnv fsTwoArtifacts "famvest"
    ∧ (deploy_artifact defaultEnv fsTwoArtifacts "famvest").1 ≠
      (mcp_deploy_artifact defaultEnv fsTwoArtifacts "famvest").1
    ∧ (get_application_status defaultEnv probeExec "ghost").1 ≠
      (mcp_get_application_status defaultEnv probeExec "ghost").1 := by
  decide

end Deployer
